import Mathlib

/-
Verification of the WebinaBiz real-time session manager against its
specification. The definitions below are a shallow embedding of the
TypeScript source: MeetingRoom.tsx (session manager) and the
BackgroundService (compositor). Streams and tracks are modelled with
numeric object identities; JS truthiness of strings is modelled by
non-emptiness.
-/

namespace WebinaBiz

/-- Kind of a media track: audio or video. -/
inductive TrackKind
  | audio
  | video
deriving DecidableEq, Repr

/-- Model of a MediaStreamTrack: object identity, kind, the mutable
enabled flag, and whether stop was called on it. -/
structure MediaTrack where
  id : Nat
  kind : TrackKind
  enabled : Bool
  stopped : Bool
deriving DecidableEq, Repr

/-- Model of a MediaStream: object identity plus its ordered track list. -/
structure MediaStream where
  id : Nat
  tracks : List MediaTrack
deriving DecidableEq, Repr

/-- The getVideoTracks accessor of the platform API. -/
def getVideoTracks (s : MediaStream) : List MediaTrack :=
  s.tracks.filter fun t => t.kind == TrackKind.video

/-- The getAudioTracks accessor of the platform API. -/
def getAudioTracks (s : MediaStream) : List MediaTrack :=
  s.tracks.filter fun t => t.kind == TrackKind.audio

/-- BackgroundMode from the shared types module: NONE, BLUR, IMAGE. -/
inductive BackgroundMode
  | NONE
  | BLUR
  | IMAGE
deriving DecidableEq, Repr

/-- Mirrors the nextStream selection of MeetingRoom.tsx, lines 126 to 134:
the screen stream when present, else the processed stream when the
background mode is not NONE and a processed stream exists, else the
webcam stream. -/
def selectActiveStream (screenStream processedStream webcamStream : Option MediaStream)
    (backgroundMode : BackgroundMode) : Option MediaStream :=
  if screenStream.isSome then screenStream
  else if backgroundMode ≠ BackgroundMode.NONE ∧ processedStream.isSome then processedStream
  else webcamStream

/-- Result of one recompute of the active stream: the resulting reference
and whether setActiveStream ran. -/
structure ActiveUpdate where
  stream : Option MediaStream
  changed : Bool
deriving DecidableEq, Repr

/-- Mirrors MeetingRoom.tsx lines 136 to 140: the active reference is
updated only when the newly selected stream differs by identity from the
current one. -/
def recomputeActive (current screenStream processedStream webcamStream : Option MediaStream)
    (backgroundMode : BackgroundMode) : ActiveUpdate :=
  let next := selectActiveStream screenStream processedStream webcamStream backgroundMode
  if next = current then { stream := current, changed := false }
  else { stream := next, changed := true }

/-- C1: the active outbound stream is selected by strict priority: screen
share first; otherwise the processed stream when the background mode is
not NONE and a processed stream exists; otherwise the raw camera stream.
The active reference is updated only when the selection differs by
identity from the current one. -/
theorem C1_active_stream_priority
    (scr prc cam cur : Option MediaStream) (m : BackgroundMode) :
    (∀ s, scr = some s → selectActiveStream scr prc cam m = some s) ∧
    (scr = none → m ≠ BackgroundMode.NONE → ∀ p, prc = some p →
      selectActiveStream scr prc cam m = some p) ∧
    (scr = none → m = BackgroundMode.NONE ∨ prc = none →
      selectActiveStream scr prc cam m = cam) ∧
    (recomputeActive cur scr prc cam m).stream
      = selectActiveStream scr prc cam m ∧
    ((recomputeActive cur scr prc cam m).changed = false ↔
      selectActiveStream scr prc cam m = cur) := by
  refine ⟨?_, ?_, ?_, ?_, ?_⟩
  · intro s hs
    subst hs
    simp [selectActiveStream]
  · intro hscr hm p hp
    subst hscr hp
    simp [selectActiveStream, hm]
  · intro hscr hmp
    subst hscr
    rcases hmp with hm | hp
    · subst hm
      simp [selectActiveStream]
    · subst hp
      simp [selectActiveStream]
  · by_cases h : selectActiveStream scr prc cam m = cur <;>
      simp [recomputeActive, h]
  · by_cases h : selectActiveStream scr prc cam m = cur <;>
      simp [recomputeActive, h]

/-- Concrete run of the C1 priority theorem: a present screen stream wins. -/
theorem C1_active_stream_priority_witness :
    selectActiveStream (some { id := 5, tracks := [] }) none none
      BackgroundMode.NONE = some { id := 5, tracks := [] } :=
  (C1_active_stream_priority (some { id := 5, tracks := [] }) none none none
    BackgroundMode.NONE).1 { id := 5, tracks := [] } rfl

/-- Snapshot of the three join conditions as seen by one invocation of the
join effect of MeetingRoom.tsx, lines 193 to 200: the target meeting id
prop, the local peer id state, and the active stream reference. -/
structure JoinObs where
  targetMeetingId : String
  myPeerId : String
  activeStream : Option MediaStream
deriving DecidableEq, Repr

/-- Truthiness of the guard at line 195: target id, local id and a live
active source all present (JS string truthiness is non-emptiness). -/
def joinReady (o : JoinObs) : Bool :=
  !o.targetMeetingId.isEmpty && !o.myPeerId.isEmpty && o.activeStream.isSome

/-- One invocation of the join effect: connectToHost fires iff the guard
holds and hasJoinedRef is still false; firing sets hasJoinedRef. Returns
the new flag and whether connectToHost ran. -/
def joinStep (hasJoined : Bool) (o : JoinObs) : Bool × Bool :=
  if joinReady o && !hasJoined then (true, true) else (hasJoined, false)

/-- Number of times connectToHost fires over a sequence of invocations of
the join effect, starting from a given hasJoinedRef flag. -/
def joinFires (hasJoined : Bool) : List JoinObs → Nat
  | [] => 0
  | o :: rest =>
      (if (joinStep hasJoined o).2 then 1 else 0) + joinFires (joinStep hasJoined o).1 rest

/-- Once hasJoinedRef is set, no further invocation fires. -/
theorem joinFires_of_joined (obs : List JoinObs) : joinFires true obs = 0 := by
  induction obs with
  | nil => rfl
  | cons o rest ih =>
      simp [joinFires, joinStep, ih]

/-- C2: over every sequence of join-effect invocations the outbound
connect fires exactly once when some invocation sees all three conditions
hold simultaneously, and zero times otherwise: an early request is
deferred, never dropped, and never fires twice. -/
theorem C2_join_fires_exactly_once (obs : List JoinObs) :
    joinFires false obs = (if obs.any joinReady then 1 else 0) := by
  induction obs with
  | nil => rfl
  | cons o rest ih =>
      by_cases h : joinReady o = true
      · simp [joinFires, joinStep, h, joinFires_of_joined]
      · simp at h
        simp [joinFires, joinStep, h, ih]

/-- Participant roster entry from the shared types module. -/
structure Participant where
  id : String
  peerId : String
  name : String
  isLocal : Bool
  videoEnabled : Bool
  audioEnabled : Bool
deriving DecidableEq, Repr

/-- A PeerJS media call handle: the remote peer id, a numeric object
identity (two calls from the same peer id are distinct objects), and the
optional name carried in the call metadata. -/
structure Call where
  peer : String
  callId : Nat
  metadataName : Option String
deriving DecidableEq, Repr

/-- Peer-session state of MeetingRoom: activeCallsRef, the participants
state, and peerNamesRef (an association list, first binding wins). -/
structure SessionState where
  activeCalls : List Call
  participants : List Participant
  peerNames : List (String × String)
deriving DecidableEq, Repr

/-- The empty initial session state. -/
def initSession : SessionState :=
  { activeCalls := [], participants := [], peerNames := [] }

/-- Lookup in the peerNames record, first binding wins. -/
def lookupName (l : List (String × String)) (k : String) : Option String :=
  (l.find? fun p => p.1 == k).map Prod.snd

/-- JS expression a OR b on an optional string against a default string:
undefined and the empty string are falsy. -/
def jsOr (a : Option String) (b : String) : String :=
  match a with
  | some s => if s.isEmpty then b else s
  | none => b

/-- Fallback display name derived from the remote peer id, line 281 of
MeetingRoom.tsx. -/
def fallbackName (peer : String) : String :=
  "User " ++ peer.take 4

/-- Name resolution for a newly observed remote stream, lines 279 to 281:
cached identity-channel name, else the call metadata name, else the
generated fallback. -/
def resolveName (cached metadataName : Option String) (peer : String) : String :=
  jsOr cached (jsOr metadataName (fallbackName peer))

/-- Mirrors the dedup guard and registration at the top of
handleCallStream, lines 264 to 267: a call whose peer id already has a
connection entry is ignored, otherwise it is appended. -/
def registerCall (s : SessionState) (c : Call) : SessionState :=
  if s.activeCalls.any fun c2 => c2.peer == c.peer then s
  else { s with activeCalls := s.activeCalls ++ [c] }

/-- Mirrors the stream handler of handleCallStream, lines 269 to 293: add
a participant once per peer id, resolving the display name by the cached
name, then the call metadata, then the fallback. -/
def onCallStream (s : SessionState) (c : Call) : SessionState :=
  if s.participants.any fun p => p.peerId == c.peer then s
  else
    { s with participants := s.participants ++
        [{ id := c.peer, peerId := c.peer,
           name := resolveName (lookupName s.peerNames c.peer) c.metadataName c.peer,
           isLocal := false, videoEnabled := true, audioEnabled := true }] }

/-- Response of the incoming call handler. PeerJS also allows not
answering (rejecting); the handler never takes that path. -/
inductive CallResponse
  | answerWith (stream : MediaStream)
  | answerEmpty
  | reject
deriving DecidableEq, Repr

/-- Mirrors the incoming call handler, lines 165 to 176 of
MeetingRoom.tsx: always answer; attach the active stream and register the
call when a stream exists, otherwise answer with no tracks. -/
def onIncomingCall (s : SessionState) (activeStream : Option MediaStream)
    (c : Call) : SessionState × CallResponse :=
  match activeStream with
  | some str => (registerCall s c, CallResponse.answerWith str)
  | none => (s, CallResponse.answerEmpty)

/-- Mirrors the identify data handler, lines 237 to 247: record the
mapping only when the message carries a truthy name, and update an
already existing participant in place. -/
def onIdentify (s : SessionState) (peer : String) (dataName : Option String) : SessionState :=
  match dataName with
  | some n =>
      if n.isEmpty then s
      else
        { s with
          peerNames := (peer, n) :: s.peerNames,
          participants := s.participants.map fun p =>
            if p.peerId == peer then { p with name := n } else p }
  | none => s

/-- Mirrors the close and error handlers of handleCallStream, lines 295
to 305: drop the participant of that peer id and the call object itself. -/
def onCallClose (s : SessionState) (c : Call) : SessionState :=
  { s with
    participants := s.participants.filter fun p => !(p.peerId == c.peer),
    activeCalls := s.activeCalls.filter fun c2 => !(c2 == c) }

/-- The session events the claims quantify over. -/
inductive SessionEvent
  | incomingCall (activeStream : Option MediaStream) (c : Call)
  | outgoingCall (c : Call)
  | callStream (c : Call)
  | identify (peer : String) (dataName : Option String)
  | callClose (c : Call)
deriving DecidableEq, Repr

/-- Dispatch one session event. The outgoingCall event is the
handleCallStream registration performed by connectToHost. -/
def sessionStep (s : SessionState) : SessionEvent → SessionState
  | SessionEvent.incomingCall a c => (onIncomingCall s a c).1
  | SessionEvent.outgoingCall c => registerCall s c
  | SessionEvent.callStream c => onCallStream s c
  | SessionEvent.identify p d => onIdentify s p d
  | SessionEvent.callClose c => onCallClose s c

/-- Run a list of session events. -/
def sessionRun (s : SessionState) : List SessionEvent → SessionState
  | [] => s
  | e :: es => sessionRun (sessionStep s e) es

/-- Deduplication invariant: connection peer ids and participant peer ids
are both duplicate free. -/
def sessionNodup (s : SessionState) : Prop :=
  (s.activeCalls.map Call.peer).Nodup ∧ (s.participants.map Participant.peerId).Nodup

/-- A list keyed without duplicates has at most one element per key. -/
theorem length_filter_le_one_of_nodup_map {α β : Type} [DecidableEq β]
    (f : α → β) (l : List α) (h : (l.map f).Nodup) (b : β) :
    (l.filter fun a => f a == b).length ≤ 1 := by
  induction l with
  | nil => simp
  | cons a l ih =>
      simp only [List.map_cons, List.nodup_cons] at h
      by_cases hb : f a = b
      · have hnil : (l.filter fun a => f a == b) = [] := by
          apply List.filter_eq_nil_iff.mpr
          intro x hx hfx
          exact h.1 (by rw [beq_iff_eq] at hfx; rw [hb, ← hfx]; exact List.mem_map_of_mem f hx)
        simp [List.filter_cons, hb, hnil]
      · simpa [List.filter_cons, hb] using ih h.2

/-- Every session event preserves the deduplication invariant. -/
theorem sessionStep_nodup {s : SessionState} (h : sessionNodup s)
    (e : SessionEvent) : sessionNodup (sessionStep s e) := by
  obtain ⟨hc, hp⟩ := h
  have hreg : ∀ c : Call, sessionNodup (registerCall s c) := by
    intro c
    by_cases hdup : (s.activeCalls.any fun c2 => c2.peer == c.peer) = true
    · have hstep : registerCall s c = s := by simp [registerCall, hdup]
      rw [hstep]
      exact ⟨hc, hp⟩
    · have hnotmem : c.peer ∉ s.activeCalls.map Call.peer := by
        intro hmem
        obtain ⟨c2, hc2, hc2eq⟩ := List.mem_map.mp hmem
        exact hdup ((List.any_eq_true).mpr ⟨c2, hc2, by simp [hc2eq]⟩)
      have hstep : registerCall s c
          = { s with activeCalls := s.activeCalls ++ [c] } := by
        simp [registerCall, hdup]
      rw [hstep]
      refine ⟨?_, hp⟩
      rw [List.map_append]
      refine List.Nodup.append hc (by simp) ?_
      intro a ha hb
      simp at hb
      exact hnotmem (hb ▸ ha)
  cases e with
  | incomingCall a c =>
      cases a with
      | some str => exact hreg c
      | none => exact ⟨hc, hp⟩
  | outgoingCall c => exact hreg c
  | callStream c =>
      show sessionNodup (onCallStream s c)
      by_cases hdup : (s.participants.any fun p => p.peerId == c.peer) = true
      · have hstep : onCallStream s c = s := by simp [onCallStream, hdup]
        rw [hstep]
        exact ⟨hc, hp⟩
      · have hnotmem : c.peer ∉ s.participants.map Participant.peerId := by
          intro hmem
          obtain ⟨p, hpmem, hpeq⟩ := List.mem_map.mp hmem
          exact hdup ((List.any_eq_true).mpr ⟨p, hpmem, by simp [hpeq]⟩)
        have hstep : onCallStream s c
            = { s with participants := s.participants ++
                [{ id := c.peer, peerId := c.peer,
                   name := resolveName (lookupName s.peerNames c.peer) c.metadataName c.peer,
                   isLocal := false, videoEnabled := true, audioEnabled := true }] } := by
          simp [onCallStream, hdup]
        rw [hstep]
        refine ⟨hc, ?_⟩
        rw [List.map_append]
        refine List.Nodup.append hp (by simp) ?_
        intro a ha hb
        simp at hb
        exact hnotmem (hb ▸ ha)
  | identify p d =>
      show sessionNodup (onIdentify s p d)
      cases d with
      | some n =>
          by_cases hn : n.isEmpty = true
          · have hstep : onIdentify s p (some n) = s := by simp [onIdentify, hn]
            rw [hstep]
            exact ⟨hc, hp⟩
          · have hstep : onIdentify s p (some n)
                = { s with
                    peerNames := (p, n) :: s.peerNames,
                    participants := s.participants.map fun q =>
                      if q.peerId == p then { q with name := n } else q } := by
              simp [onIdentify, hn]
            rw [hstep]
            refine ⟨hc, ?_⟩
            have hmap : ((s.participants.map fun q =>
                if q.peerId == p then { q with name := n } else q).map Participant.peerId)
                = s.participants.map Participant.peerId := by
              rw [List.map_map]
              apply List.map_congr_left
              intro q hq
              by_cases hqp : q.peerId = p <;> simp [hqp]
            rw [show (List.map Participant.peerId (s.participants.map fun q =>
                if q.peerId == p then { q with name := n } else q))
                = ((s.participants.map fun q =>
                    if q.peerId == p then { q with name := n } else q).map
                    Participant.peerId) from rfl, hmap]
            exact hp
      | none => exact ⟨hc, hp⟩
  | callClose c =>
      show sessionNodup (onCallClose s c)
      refine ⟨?_, ?_⟩
      · exact hc.sublist ((List.filter_sublist _).map Call.peer)
      · exact hp.sublist ((List.filter_sublist _).map Participant.peerId)

/-- Running any event list from a state satisfying the invariant keeps it. -/
theorem sessionRun_nodup {s : SessionState} (h : sessionNodup s)
    (es : List SessionEvent) : sessionNodup (sessionRun s es) := by
  induction es generalizing s with
  | nil => exact h
  | cons e es ih => exact ih (sessionStep_nodup h e)

/-- C3: over every sequence of session events from the initial state, at
most one connection entry and at most one participant exist per remote
peer id; a second inbound call registration for an id with an existing
connection is a no-op, and a stream event for an already rostered peer id
adds no participant. -/
theorem C3_dedup_per_peer (es : List SessionEvent) :
    (∀ pid, ((sessionRun initSession es).activeCalls.filter
        fun c => c.peer == pid).length ≤ 1 ∧
      ((sessionRun initSession es).participants.filter
        fun p => p.peerId == pid).length ≤ 1) ∧
    (∀ s c, (s.activeCalls.any fun c2 => c2.peer == c.peer) = true →
      registerCall s c = s) ∧
    (∀ s c, (s.participants.any fun p => p.peerId == c.peer) = true →
      onCallStream s c = s) := by
  refine ⟨?_, ?_, ?_⟩
  · intro pid
    have h := sessionRun_nodup (s := initSession)
      (by constructor <;> simp [initSession]) es
    exact ⟨length_filter_le_one_of_nodup_map Call.peer _ h.1 pid,
      length_filter_le_one_of_nodup_map Participant.peerId _ h.2 pid⟩
  · intro s c hdup
    simp [registerCall, hdup]
  · intro s c hdup
    simp [onCallStream, hdup]

/-- Sample remote peer id shared by the C3 witness values. -/
def pidA : String := "abc"

/-- First call object from peer pidA. -/
def callA : Call := { peer := pidA, callId := 1, metadataName := none }

/-- Second, distinct call object from the same peer pidA. -/
def callB : Call := { peer := pidA, callId := 2, metadataName := none }

/-- A session state already holding a connection for pidA. -/
def stateWithA : SessionState :=
  { activeCalls := [callA], participants := [], peerNames := [] }

/-- Sample active stream for the C3 witness. -/
def sampleStreamC3 : MediaStream := { id := 20, tracks := [] }

/-- Concrete run of the C3 theorem: two calls from the same peer leave at
most one connection entry, and a duplicate registration is a no-op. -/
theorem C3_dedup_per_peer_witness :
    ((sessionRun initSession [SessionEvent.outgoingCall callA,
        SessionEvent.incomingCall (some sampleStreamC3) callB,
        SessionEvent.callStream callA]).activeCalls.filter
        fun c => c.peer == pidA).length ≤ 1 ∧
    registerCall stateWithA callB = stateWithA :=
  ⟨((C3_dedup_per_peer [SessionEvent.outgoingCall callA,
      SessionEvent.incomingCall (some sampleStreamC3) callB,
      SessionEvent.callStream callA]).1 pidA).1,
   (C3_dedup_per_peer []).2.1 stateWithA callB (by decide)⟩

/-- C4: every inbound call is answered, never rejected: with the current
active stream when one exists, and with no tracks otherwise, so the
connection still establishes. -/
theorem C4_inbound_always_answered (s : SessionState) (a : Option MediaStream)
    (c : Call) :
    (onIncomingCall s a c).2 ≠ CallResponse.reject ∧
    (∀ str, a = some str →
      (onIncomingCall s a c).2 = CallResponse.answerWith str) ∧
    (a = none → (onIncomingCall s a c).2 = CallResponse.answerEmpty) := by
  cases a <;> simp [onIncomingCall]

/-- Sample peer id for the C4 witness. -/
def pidC4 : String := "cfour"

/-- Sample inbound call for the C4 witness. -/
def callC4 : Call := { peer := pidC4, callId := 3, metadataName := none }

/-- Sample active stream for the C4 witness. -/
def streamC4 : MediaStream := { id := 21, tracks := [] }

/-- Concrete run of the C4 theorem: an inbound call with a live active
stream is answered with that stream. -/
theorem C4_inbound_always_answered_witness :
    (onIncomingCall initSession (some streamC4) callC4).2
      = CallResponse.answerWith streamC4 :=
  (C4_inbound_always_answered initSession (some streamC4) callC4).2.1 streamC4 rfl

/-- The empty string is falsy. -/
theorem empty_string_isEmpty : ("" : String).isEmpty = true := by decide

/-- C8: display name precedence at first remote stream: the cached
identity-channel name when truthy, else the truthy call metadata name,
else the generated fallback derived from the peer id; moreover the
identify handler never caches an empty name, so a cached name is always
truthy. -/
theorem C8_name_resolution (cached metadataName : Option String) (peer : String) :
    (∀ n, cached = some n → n.isEmpty = false →
      resolveName cached metadataName peer = n) ∧
    ((cached = none ∨ cached = some "") →
      ∀ m, metadataName = some m → m.isEmpty = false →
      resolveName cached metadataName peer = m) ∧
    ((cached = none ∨ cached = some "") →
      (metadataName = none ∨ metadataName = some "") →
      resolveName cached metadataName peer = fallbackName peer) ∧
    (∀ st q d x nm, (x, nm) ∈ (onIdentify st q d).peerNames →
      (x, nm) ∈ st.peerNames ∨ nm.isEmpty = false) := by
  refine ⟨?_, ?_, ?_, ?_⟩
  · intro n hn hne
    subst hn
    simp [resolveName, jsOr, hne]
  · rintro (hc | hc) m hm hme <;> subst hc <;> subst hm <;>
      simp [resolveName, jsOr, hme, empty_string_isEmpty]
  · rintro (hc | hc) (hm | hm) <;> subst hc <;> subst hm <;>
      simp [resolveName, jsOr, empty_string_isEmpty]
  · intro st q d x nm hmem
    cases d with
    | none => exact Or.inl hmem
    | some n =>
        by_cases hn : n.isEmpty = true
        · left
          have hstep : onIdentify st q (some n) = st := by simp [onIdentify, hn]
          rwa [hstep] at hmem
        · have hstep : (onIdentify st q (some n)).peerNames
              = (q, n) :: st.peerNames := by simp [onIdentify, hn]
          rw [hstep] at hmem
          rcases List.mem_cons.mp hmem with heq | hmem2
          · right
            have : nm = n := congrArg Prod.snd heq
            rw [this]
            exact Bool.not_eq_true _ ▸ (by simpa using hn)
          · exact Or.inl hmem2

/-- Sample cached identity name for the C8 witness. -/
def aliceName : String := "Alice"

/-- Sample metadata name for the C8 witness. -/
def bobName : String := "Bob"

/-- Sample peer id for the C8 witness. -/
def pidC8 : String := "zzzz9"

/-- Concrete run of the C8 theorem: a truthy cached name wins over the
metadata name. -/
theorem C8_name_resolution_witness :
    resolveName (some aliceName) (some bobName) pidC8 = aliceName :=
  (C8_name_resolution (some aliceName) (some bobName) pidC8).1 aliceName rfl (by decide)

/-- Mirrors the mixing logic of the start branch of toggleScreenShare,
MeetingRoom.tsx lines 341 to 350: the mixed outbound screen stream is
built from the first display-capture video track plus the first webcam
microphone track when one exists. The display-capture audio tracks are
not consulted. -/
def mixScreenStream (newId : Nat) (displayStream : MediaStream)
    (webcamStream : Option MediaStream) : MediaStream :=
  let videoTrack := (getVideoTracks displayStream).head?
  let audioTrack := webcamStream.bind fun w => (getAudioTracks w).head?
  { id := newId, tracks := videoTrack.toList ++ audioTrack.toList }

/-- A member of the head of a list is a member of the list. -/
theorem mem_of_head?_eq_some {α : Type} {l : List α} {a : α}
    (h : l.head? = some a) : a ∈ l := by
  cases l with
  | nil => cases h
  | cons b t =>
      simp only [List.head?_cons, Option.some.injEq] at h
      rw [← h]
      exact List.mem_cons_self b t

/-- Any track taken from getVideoTracks has video kind. -/
theorem kind_of_mem_getVideoTracks {s : MediaStream} {t : MediaTrack}
    (h : t ∈ getVideoTracks s) : t.kind = TrackKind.video := by
  have := (List.mem_filter.mp h).2
  rwa [beq_iff_eq] at this

/-- Any track taken from getAudioTracks has audio kind. -/
theorem kind_of_mem_getAudioTracks {s : MediaStream} {t : MediaTrack}
    (h : t ∈ getAudioTracks s) : t.kind = TrackKind.audio := by
  have := (List.mem_filter.mp h).2
  rwa [beq_iff_eq] at this

/-- Screen-capture audio track used by the C5 counterexample. -/
def screenAudioTrack : MediaTrack :=
  { id := 1, kind := TrackKind.audio, enabled := true, stopped := false }

/-- Screen-capture video track used by the C5 counterexample. -/
def screenVideoTrack : MediaTrack :=
  { id := 2, kind := TrackKind.video, enabled := true, stopped := false }

/-- Microphone track used by the C5 counterexample. -/
def micTrack : MediaTrack :=
  { id := 3, kind := TrackKind.audio, enabled := true, stopped := false }

/-- A display capture that carries its own audio track. -/
def sampleDisplayStream : MediaStream :=
  { id := 10, tracks := [screenVideoTrack, screenAudioTrack] }

/-- A webcam stream whose only track is the microphone. -/
def sampleWebcamStream : MediaStream :=
  { id := 11, tracks := [micTrack] }

/-- C5 counterexample: with a display capture that has its own audio
track and a webcam microphone available, the mixed outbound stream
carries the microphone track, not the screen-capture audio, so the
claimed screen-audio preference fails. -/
theorem C5_counterexample :
    getAudioTracks sampleDisplayStream = [screenAudioTrack] ∧
    getAudioTracks (mixScreenStream 12 sampleDisplayStream (some sampleWebcamStream))
      = [micTrack] ∧
    micTrack ≠ screenAudioTrack := by decide

/-- C5 amended: when screen sharing starts, the mixed outbound stream
takes its video from the first display-capture video track and its audio
from the first webcam microphone track when one exists; the screen
capture audio is never attached, so the stream carries audio exactly when
a microphone track exists. -/
theorem C5_screen_mix_audio (newId : Nat) (d : MediaStream)
    (w : Option MediaStream) :
    getVideoTracks (mixScreenStream newId d w)
      = ((getVideoTracks d).head?).toList ∧
    getAudioTracks (mixScreenStream newId d w)
      = (w.bind fun s => (getAudioTracks s).head?).toList := by
  have hv : ∀ t, (getVideoTracks d).head? = some t → t.kind = TrackKind.video := by
    intro t ht
    exact kind_of_mem_getVideoTracks (mem_of_head?_eq_some ht)
  have ha : ∀ t, (w.bind fun s => (getAudioTracks s).head?) = some t →
      t.kind = TrackKind.audio := by
    intro t ht
    cases w with
    | none => cases ht
    | some ws =>
        simp only [Option.bind_eq_bind, Option.some_bind] at ht
        exact kind_of_mem_getAudioTracks (mem_of_head?_eq_some ht)
  have hmix : (mixScreenStream newId d w).tracks
      = ((getVideoTracks d).head?).toList
        ++ (w.bind fun s => (getAudioTracks s).head?).toList := rfl
  have hvu : getVideoTracks (mixScreenStream newId d w)
      = List.filter (fun t => t.kind == TrackKind.video)
          (mixScreenStream newId d w).tracks := rfl
  have hau : getAudioTracks (mixScreenStream newId d w)
      = List.filter (fun t => t.kind == TrackKind.audio)
          (mixScreenStream newId d w).tracks := rfl
  cases hvt : (getVideoTracks d).head? with
  | none =>
      cases hat : (w.bind fun s => (getAudioTracks s).head?) with
      | none =>
          have ht : (mixScreenStream newId d w).tracks = [] := by
            rw [hmix, hvt, hat]
            rfl
          constructor
          · rw [hvu, ht]
            rfl
          · rw [hau, ht]
            rfl
      | some ta =>
          have hka := ha ta hat
          have ht : (mixScreenStream newId d w).tracks = [ta] := by
            rw [hmix, hvt, hat]
            rfl
          constructor
          · rw [hvu, ht]
            simp [hka]
          · rw [hau, ht]
            simp [hka]
  | some tv =>
      have hkv := hv tv hvt
      cases hat : (w.bind fun s => (getAudioTracks s).head?) with
      | none =>
          have ht : (mixScreenStream newId d w).tracks = [tv] := by
            rw [hmix, hvt, hat]
            rfl
          constructor
          · rw [hvu, ht]
            simp [hkv]
          · rw [hau, ht]
            simp [hkv]
      | some ta =>
          have hka := ha ta hat
          have ht : (mixScreenStream newId d w).tracks = [tv, ta] := by
            rw [hmix, hvt, hat]
            rfl
          constructor
          · rw [hvu, ht]
            simp [hkv, hka]
          · rw [hau, ht]
            simp [hkv, hka]

/-- Scheduler state of the BackgroundService of src/unnamed/part_004:
the active flag; whether the segmentation backend can come up (the
external SelfieSegmentation script has loaded, so ensureInitialized
succeeds when next consulted); and the scheduled callbacks currently
pending, split by kind: requestAnimationFrame ticks of processFrame, and
setTimeout retries of processStream from the 500ms backoff path at lines
126 to 130. -/
structure CompositorState where
  active : Bool
  ready : Bool
  pendingFrames : Nat
  pendingRetries : Nat
deriving DecidableEq, Repr

/-- Observable scheduler events: a processStream call, a stop call, one
pending processFrame tick running, one pending retry timeout running,
and the external segmentation script becoming available. -/
inductive CompEvent
  | start
  | stop
  | frameTick
  | retryTick
  | becomeReady
deriving DecidableEq, Repr

/-- Mirrors processStream, its retry timeout and stop of part_004. A
processStream entry (a start call and a firing retry timeout alike) sets
active unconditionally at line 121; then, when the backend is ready, it
enters the processFrame loop, scheduling one frame chain, and when not
ready it schedules a retry timeout, the active guard at line 127 passing
because active was just set, so a firing retry keeps exactly one chain
alive in every case and never observes a preceding stop. stop at line
163 only clears the flag. A pending processFrame tick runs the body and
reschedules itself while active, and exits without rescheduling when it
observes the flag cleared at line 134 or 154. frameTick and retryTick
with nothing of their kind pending are no-ops. -/
def compStep (s : CompositorState) : CompEvent → CompositorState
  | CompEvent.start =>
      if s.ready then
        { s with active := true, pendingFrames := s.pendingFrames + 1 }
      else
        { s with active := true, pendingRetries := s.pendingRetries + 1 }
  | CompEvent.stop => { s with active := false }
  | CompEvent.frameTick =>
      if s.pendingFrames = 0 then s
      else if s.active then s
      else { s with pendingFrames := s.pendingFrames - 1 }
  | CompEvent.retryTick =>
      if s.pendingRetries = 0 then s
      else if s.ready then
        { s with active := true,
                 pendingFrames := s.pendingFrames + 1,
                 pendingRetries := s.pendingRetries - 1 }
      else { s with active := true }
  | CompEvent.becomeReady => { s with ready := true }

/-- Run a list of scheduler events. -/
def compRun (s : CompositorState) : List CompEvent → CompositorState
  | [] => s
  | e :: es => compRun (compStep s e) es

/-- Initial scheduler state: inactive, script not yet loaded, nothing
scheduled. -/
def compInit : CompositorState :=
  { active := false, ready := false, pendingFrames := 0, pendingRetries := 0 }

/-- Initial scheduler state with the segmentation script already loaded. -/
def compReadyInit : CompositorState :=
  { active := false, ready := true, pendingFrames := 0, pendingRetries := 0 }

/-- Total number of scheduled loop chains of either kind. -/
def totalPending (s : CompositorState) : Nat :=
  s.pendingFrames + s.pendingRetries

/-- Discipline under which the single-chain property holds: every
processStream call happens only when no chain is pending. -/
def startsOnlyWhenDrained (s : CompositorState) : List CompEvent → Bool
  | [] => true
  | e :: es =>
      decide (e = CompEvent.start → totalPending s = 0)
        && startsOnlyWhenDrained (compStep s e) es

/-- C6 counterexample, refuting the claim at two concrete inputs: two
processStream calls with no intervening drain leave two frame loops
scheduled at once; and a stop issued while an initialization retry is
pending is not observed by that chain on its next scheduled tick: the
retry re-enters processStream, which re-sets the active flag and keeps
its chain scheduled instead of exiting. -/
theorem C6_counterexample :
    ((compRun compReadyInit [CompEvent.start, CompEvent.start]).pendingFrames = 2 ∧
      ¬ totalPending (compRun compReadyInit
          [CompEvent.start, CompEvent.start]) ≤ 1) ∧
    ((compRun compInit [CompEvent.start, CompEvent.stop,
        CompEvent.retryTick]).active = true ∧
      (compRun compInit [CompEvent.start, CompEvent.stop,
        CompEvent.retryTick]).pendingRetries = 1) := by
  decide

/-- C6 amended: stop is idempotent, safe to call repeatedly and safe
before any start; a running frame loop observes the cleared flag on its
next scheduled tick and exits, scheduling nothing further; a pending
initialization retry, however, does not observe the flag: its tick
re-enters processStream, re-sets the active flag and keeps exactly one
chain scheduled, undoing a stop issued while it was pending; and at most
one loop chain is ever scheduled provided every processStream call
happens only when no chain of either kind is pending. -/
theorem C6_compositor_scheduling :
    (∀ s, compStep (compStep s CompEvent.stop) CompEvent.stop
      = compStep s CompEvent.stop) ∧
    compStep compInit CompEvent.stop = compInit ∧
    (∀ s, s.active = false → 0 < s.pendingFrames →
      (compStep s CompEvent.frameTick).pendingFrames = s.pendingFrames - 1 ∧
      (compStep s CompEvent.frameTick).active = false ∧
      (compStep s CompEvent.frameTick).pendingRetries = s.pendingRetries) ∧
    (∀ s, 0 < s.pendingRetries →
      (compStep s CompEvent.retryTick).active = true ∧
      totalPending (compStep s CompEvent.retryTick) = totalPending s) ∧
    (∀ s es, totalPending s ≤ 1 → startsOnlyWhenDrained s es = true →
      totalPending (compRun s es) ≤ 1) := by
  refine ⟨?_, rfl, ?_, ?_, ?_⟩
  · intro s
    rfl
  · intro s hact hpos
    have hne : ¬ s.pendingFrames = 0 := Nat.pos_iff_ne_zero.mp hpos
    refine ⟨?_, ?_, ?_⟩ <;> simp [compStep, hne, hact]
  · intro s hpos
    have hne : ¬ s.pendingRetries = 0 := Nat.pos_iff_ne_zero.mp hpos
    by_cases hr : s.ready = true
    · constructor
      · simp [compStep, hne, hr]
      · simp [compStep, hne, hr, totalPending]
        omega
    · constructor
      · simp [compStep, hne, hr]
      · simp [compStep, hne, hr, totalPending]
  · intro s es
    induction es generalizing s with
    | nil =>
        intro h _
        exact h
    | cons e es ih =>
        intro hle hdisc
        simp only [startsOnlyWhenDrained, Bool.and_eq_true, decide_eq_true_eq] at hdisc
        obtain ⟨hd, hrest⟩ := hdisc
        refine ih (s := compStep s e) ?_ hrest
        cases e with
        | start =>
            have h0 : totalPending s = 0 := hd rfl
            simp only [totalPending] at h0 ⊢
            by_cases hr : s.ready = true <;> simp [compStep, hr] <;> omega
        | stop => simpa [compStep, totalPending] using hle
        | becomeReady => simpa [compStep, totalPending] using hle
        | frameTick =>
            by_cases h0 : s.pendingFrames = 0
            · simpa [compStep, h0] using hle
            · by_cases hact : s.active = true
              · simpa [compStep, h0, hact] using hle
              · simp only [totalPending] at hle ⊢
                simp [compStep, h0, hact]
                omega
        | retryTick =>
            by_cases h0 : s.pendingRetries = 0
            · simpa [compStep, h0] using hle
            · by_cases hr : s.ready = true
              · simp only [totalPending] at hle ⊢
                simp [compStep, h0, hr]
                omega
              · simp only [totalPending] at hle ⊢
                simpa [compStep, h0, hr] using hle

/-- Sample state for the C6 witness: stopped, with one frame tick pending. -/
def inactiveFrameSample : CompositorState :=
  { active := false, ready := true, pendingFrames := 1, pendingRetries := 0 }

/-- Sample state for the C6 witness: stopped, with one retry pending. -/
def pendingRetrySample : CompositorState :=
  { active := false, ready := false, pendingFrames := 0, pendingRetries := 1 }

/-- Concrete runs of the C6 amended theorem: a drained interleaving with
a retry conversion, a stop, a frame-loop exit and a restart keeps at
most one chain scheduled; a pending frame tick of an inactive loop
exits; a pending retry re-activates the service. -/
theorem C6_compositor_scheduling_witness :
    totalPending (compRun compInit [CompEvent.start, CompEvent.becomeReady,
      CompEvent.retryTick, CompEvent.stop, CompEvent.frameTick,
      CompEvent.start]) ≤ 1 ∧
    (compStep inactiveFrameSample CompEvent.frameTick).pendingFrames = 0 ∧
    (compStep pendingRetrySample CompEvent.retryTick).active = true :=
  ⟨C6_compositor_scheduling.2.2.2.2 compInit
      [CompEvent.start, CompEvent.becomeReady, CompEvent.retryTick,
       CompEvent.stop, CompEvent.frameTick, CompEvent.start]
      (by decide) (by decide),
   (C6_compositor_scheduling.2.2.1 inactiveFrameSample rfl (by decide)).1,
   (C6_compositor_scheduling.2.2.2.1 pendingRetrySample (by decide)).1⟩

/-- State of the MediaRecorder object. -/
inductive RecState
  | recording
  | inactive
deriving DecidableEq, Repr

/-- Recording subsystem state of MeetingRoom: mediaRecorderRef, the
isRecording flag, the accumulated chunk sizes of recordedChunksRef, the
produced downloadable artifact, and whether the capture tracks were
stopped by the onstop handler. -/
structure RecordingState where
  recorder : Option RecState
  isRecording : Bool
  chunks : List Nat
  artifact : Option (List Nat)
  captureStopped : Bool
deriving DecidableEq, Repr

/-- Mirrors the stop branch of toggleRecording, MeetingRoom.tsx lines 367
to 372: when isRecording, stop the recorder if it exists and is not
inactive and clear the flag. -/
def toggleRecordingStop (s : RecordingState) : RecordingState :=
  if s.isRecording then
    match s.recorder with
    | some RecState.recording =>
        { s with recorder := some RecState.inactive, isRecording := false }
    | _ => s
  else s

/-- Mirrors the onended handler installed on the capture video track,
lines 420 to 425: stop the recorder if it exists and is not inactive and
clear the flag. -/
def onCaptureEnded (s : RecordingState) : RecordingState :=
  match s.recorder with
  | some RecState.recording =>
      { s with recorder := some RecState.inactive, isRecording := false }
  | _ => s

/-- Mirrors the onstop handler, lines 401 to 414: assemble the chunks
accumulated so far into a downloadable artifact and stop the capture
tracks. -/
def onRecorderStop (s : RecordingState) : RecordingState :=
  { s with artifact := some s.chunks, captureStopped := true }

/-- Mirrors ondataavailable, lines 395 to 399: keep chunks of positive
size. -/
def onDataAvailable (s : RecordingState) (size : Nat) : RecordingState :=
  if 0 < size then { s with chunks := s.chunks ++ [size] } else s

/-- C7: when the capture permission is revoked externally while recording
(the capture track ends), the recording stops exactly as on an explicit
stop, and the onstop handler still produces an artifact holding the
chunks accumulated up to that point. -/
theorem C7_capture_revoked_stops_recording (s : RecordingState)
    (h : s.isRecording = true) :
    onCaptureEnded s = toggleRecordingStop s ∧
    (s.recorder = some RecState.recording →
      (onCaptureEnded s).isRecording = false ∧
      (onCaptureEnded s).recorder = some RecState.inactive ∧
      (onRecorderStop (onCaptureEnded s)).artifact = some s.chunks ∧
      (onRecorderStop (onCaptureEnded s)).captureStopped = true) := by
  constructor
  · simp only [toggleRecordingStop, h, if_true]
    rfl
  · intro hr
    simp [onCaptureEnded, onRecorderStop, hr]

/-- Sample recording state for the C7 witness: actively recording with
two chunks accumulated. -/
def recordingSample : RecordingState :=
  { recorder := some RecState.recording, isRecording := true,
    chunks := [3, 5], artifact := none, captureStopped := false }

/-- Concrete run of the C7 theorem on a live recording with two chunks. -/
theorem C7_capture_revoked_stops_recording_witness :
    onCaptureEnded recordingSample = toggleRecordingStop recordingSample ∧
    (onRecorderStop (onCaptureEnded recordingSample)).artifact = some [3, 5] :=
  ⟨(C7_capture_revoked_stops_recording recordingSample rfl).1,
   ((C7_capture_revoked_stops_recording recordingSample rfl).2 rfl).2.2.1⟩

/-- Facade state for the mute toggles: the webcam stream and the two
enabled flags of MeetingRoom. -/
structure CamState where
  webcamStream : Option MediaStream
  isVideoEnabled : Bool
  isAudioEnabled : Bool
deriving DecidableEq, Repr

/-- Set the enabled flag of every track of one kind, leaving everything
else untouched: the per-track assignment t.enabled = newState. -/
def setEnabledForKind (k : TrackKind) (b : Bool) (s : MediaStream) : MediaStream :=
  { s with tracks := s.tracks.map fun t =>
      if t.kind == k then { t with enabled := b } else t }

/-- Mirrors toggleVideo, MeetingRoom.tsx lines 310 to 316: with a webcam
stream present, flip the enabled flag of its video tracks in place and
flip the isVideoEnabled state; otherwise do nothing. -/
def toggleVideo (s : CamState) : CamState :=
  match s.webcamStream with
  | some stream =>
      { s with
        webcamStream := some (setEnabledForKind TrackKind.video (!s.isVideoEnabled) stream),
        isVideoEnabled := !s.isVideoEnabled }
  | none => s

/-- Mirrors toggleAudio, lines 318 to 324: the audio counterpart. -/
def toggleAudio (s : CamState) : CamState :=
  match s.webcamStream with
  | some stream =>
      { s with
        webcamStream := some (setEnabledForKind TrackKind.audio (!s.isAudioEnabled) stream),
        isAudioEnabled := !s.isAudioEnabled }
  | none => s

/-- Which of the two toggles is invoked. -/
inductive ToggleChoice
  | video
  | audio
deriving DecidableEq, Repr

/-- Dispatch one toggle invocation. -/
def applyToggle (s : CamState) : ToggleChoice → CamState
  | ToggleChoice.video => toggleVideo s
  | ToggleChoice.audio => toggleAudio s

/-- Apply a sequence of toggle invocations. -/
def applyToggles (s : CamState) : List ToggleChoice → CamState
  | [] => s
  | t :: ts => applyToggles (applyToggle s t) ts

/-- The device-relevant shape of a track: identity, kind and the stopped
flag; the mutable enabled flag is erased. -/
def trackSkeleton (t : MediaTrack) : Nat × TrackKind × Bool :=
  (t.id, t.kind, t.stopped)

/-- The device-relevant shape of a stream: identity plus the shapes of
its tracks; a toggle that stops or reacquires anything would change it. -/
def streamSkeleton (s : MediaStream) : Nat × List (Nat × TrackKind × Bool) :=
  (s.id, s.tracks.map trackSkeleton)

/-- The enabled assignment leaves the device-relevant shape of a track
unchanged. -/
theorem trackSkeleton_setEnabled (k : TrackKind) (b : Bool) (t : MediaTrack) :
    trackSkeleton (if t.kind == k then { t with enabled := b } else t)
      = trackSkeleton t := by
  by_cases h : t.kind == k <;> simp [h, trackSkeleton]

/-- setEnabledForKind preserves the stream skeleton. -/
theorem streamSkeleton_setEnabledForKind (k : TrackKind) (b : Bool) (s : MediaStream) :
    streamSkeleton (setEnabledForKind k b s) = streamSkeleton s := by
  unfold streamSkeleton setEnabledForKind
  simp only [List.map_map]
  refine congrArg _ ?_
  apply List.map_congr_left
  intro t ht
  exact trackSkeleton_setEnabled k b t

/-- One toggle invocation preserves the stream skeleton. -/
theorem applyToggle_skeleton (s : CamState) (t : ToggleChoice) :
    (applyToggle s t).webcamStream.map streamSkeleton
      = s.webcamStream.map streamSkeleton := by
  cases t <;> cases hw : s.webcamStream <;>
    simp [applyToggle, toggleVideo, toggleAudio, hw, streamSkeleton_setEnabledForKind]

/-- C9: any number of mute toggles on a live camera stream only flips
enabled flags of the existing tracks in place: stream identity, track
identities, kinds and stopped flags are all unchanged, so no track is
stopped, no device is reacquired, and the set of open device streams is
unchanged across every toggle. -/
theorem C9_toggles_preserve_device (s : CamState) (ts : List ToggleChoice) :
    (applyToggles s ts).webcamStream.map streamSkeleton
      = s.webcamStream.map streamSkeleton := by
  induction ts generalizing s with
  | nil => rfl
  | cons t ts ih =>
      calc (applyToggles (applyToggle s t) ts).webcamStream.map streamSkeleton
          = (applyToggle s t).webcamStream.map streamSkeleton := ih (applyToggle s t)
        _ = s.webcamStream.map streamSkeleton := applyToggle_skeleton s t

/-- C10: when no camera stream was ever acquired, toggleVideo and
toggleAudio are complete no-ops: both enabled flags and all stream state
are left exactly unchanged for any number of invocations. -/
theorem C10_toggles_noop_without_camera (s : CamState)
    (h : s.webcamStream = none) (ts : List ToggleChoice) :
    applyToggles s ts = s := by
  have hstep : ∀ t, applyToggle s t = s := by
    intro t
    cases t <;> simp [applyToggle, toggleVideo, toggleAudio, h]
  induction ts with
  | nil => rfl
  | cons t ts ih =>
      show applyToggles (applyToggle s t) ts = s
      rw [hstep t]
      exact ih

/-- Sample facade state with no camera stream for the C10 witness. -/
def noCameraState : CamState :=
  { webcamStream := none, isVideoEnabled := false, isAudioEnabled := false }

/-- Concrete run of the C10 theorem: three toggles on a state with no
camera stream change nothing. -/
theorem C10_toggles_noop_without_camera_witness :
    applyToggles noCameraState
      [ToggleChoice.video, ToggleChoice.audio, ToggleChoice.video] = noCameraState :=
  C10_toggles_noop_without_camera noCameraState rfl
    [ToggleChoice.video, ToggleChoice.audio, ToggleChoice.video]

end WebinaBiz
